import Mathlib

/-!
# Verification of the google-calendar-mcp batch list-events subsystem

A shallow embedding of the google-calendar-mcp repository's data model and
operations, with theorems settling a list of claims about its behaviour.

The embedding covers:
* the event merger (per-calendar success/failure partitioning and the stable
  chronological sort of merged events),
* the multipart batch request builder (paths, percent-encoding, multipart
  serialization, Content-ID assignment),
* the list-events handler's dispatch between the single-calendar direct path
  and the multi-calendar batch path (with a network-call trace),
* the list-events argument validator (calendarId shapes, JSON-decoding
  fallback, ISO-8601 time format),
* the call-tool error boundary, the Google API error handler, the per-token
  client cache, and the access-token stripping done by tool handlers.

Components whose implementation is not among the provided sources (the batch
subsystem proper and the argument validator; only their tests ship with the
sources) are modelled from the specification document, as indicated by their
doc comments.

The file is organised as definitions first, then theorems.
-/

namespace GCal

/-- Start (or end) field of a calendar event: a timed `dateTime` or an
all-day `date`, both optional, mirroring the Google Calendar event shape. -/
structure EventStart where
  dateTime : Option String := none
  date : Option String := none
deriving DecidableEq

/-- A calendar event record as consumed by the merger: `id`, `summary`,
`start`/`finish` times, optional `location`, and the `calendarId` tag added
during merging (absent on raw API events).  `finish` stands for the source's
`end` field, which is a reserved word. -/
structure CalEvent where
  id : String := ""
  summary : String := ""
  start : Option EventStart := none
  finish : Option EventStart := none
  location : Option String := none
  calendarId : Option String := none
deriving DecidableEq

/-- The `error` object of a failed Google Calendar API sub-response body. -/
structure ApiErrorInfo where
  code : Nat := 0
  message : String := ""
deriving DecidableEq

/-- Parsed JSON body of one batch sub-response: an optional `items` list (on
success) and an optional `error` object (on failure). -/
structure ResponseBody where
  items : Option (List CalEvent) := none
  apiError : Option ApiErrorInfo := none
deriving DecidableEq

/-- One per-calendar HTTP sub-response: status code and parsed body. -/
structure SubResponse where
  statusCode : Nat
  body : ResponseBody
deriving DecidableEq

/-- One entry of the merge outcome's error list: the failing calendar id
together with the failing sub-response's body. -/
structure CalendarError where
  calendarId : String
  error : ResponseBody
deriving DecidableEq

/-- The merge outcome: the unified tagged event list and the per-calendar
error list. -/
structure BatchOutcome where
  events : List CalEvent
  errors : List CalendarError
deriving DecidableEq

/-- Structural lexicographic `≤` on character lists.  Core `String.ltb` is
iterator-based and does not reduce in the kernel, so the embedding uses this
comparator and (below) proves it equivalent to Mathlib's lexicographic linear
order on `String`. -/
def lexLe : List Char → List Char → Bool
  | [], _ => true
  | _ :: _, [] => false
  | a :: as, b :: bs => if a < b then true else if a = b then lexLe as bs else false

/-- Executable lexicographic `≤` on strings. -/
def strLe (a b : String) : Bool := lexLe a.data b.data

namespace EventMerger

/-- Modelled from the spec: the 200–299 success-range test of §4.4 (the
EventMerger implementation is not among the provided sources; only its tests
are). -/
def isSuccess (code : Nat) : Bool := 200 ≤ code && code ≤ 299

/-- Modelled from the spec: "map each item to a tagged Event with
`calendarId = calendarIds[i]`" (§4.4). -/
def tagEvents (cal : String) (evs : List CalEvent) : List CalEvent :=
  evs.map fun e => { e with calendarId := some cal }

/-- Modelled from the spec: the per-position accumulation loop of §4.4.
A success-range sub-response whose body contains an items list contributes
its tagged items; a success-range sub-response without an items list
contributes zero events and is not an error; any other sub-response
contributes one entry to the error list. -/
def collect : List String → List SubResponse → BatchOutcome
  | [], _ => ⟨[], []⟩
  | _ :: _, [] => ⟨[], []⟩
  | c :: cs, r :: rs =>
    let rest := collect cs rs
    if isSuccess r.statusCode then
      match r.body.items with
      | some items => ⟨tagEvents c items ++ rest.events, rest.errors⟩
      | none => rest
    else
      ⟨rest.events, ⟨c, r.body⟩ :: rest.errors⟩

/-- Modelled from the spec: the start-time sort key of §4.4 — `start.dateTime`
if present, else `start.date`, else the empty string. -/
def eventKey (e : CalEvent) : String :=
  match e.start with
  | none => ""
  | some st =>
    match st.dateTime with
    | some s => s
    | none => st.date.getD ""

/-- The executable comparator used by the sort: lexicographic `≤` on the
start-time keys. -/
def eventLeB (a b : CalEvent) : Bool := strLe (eventKey a) (eventKey b)

/-- The sort relation as a proposition. -/
def eventLe (a b : CalEvent) : Prop := eventLeB a b = true

instance : DecidableRel eventLe := fun _ _ => inferInstanceAs (Decidable (_ = true))

/-- Modelled from the spec: the final stable sort of the accumulated event
list by the start-time key (§4.4); insertion sort is a stable sorting
algorithm, extensionally equal to any stable sort for this comparator. -/
def sortEvents (l : List CalEvent) : List CalEvent := List.insertionSort eventLe l

/-- Failure of the merge contract (sub-response count mismatch, §4.4). -/
inductive MergeFailure where
  | internal
deriving DecidableEq

/-- Modelled from the spec: `EventMerger.merge` (§4.4) — requires equal
lengths (else InternalError), accumulates per position, then stably sorts the
event list. -/
def merge (cals : List String) (resps : List SubResponse) :
    Except MergeFailure BatchOutcome :=
  if cals.length = resps.length then
    let o := collect cals resps
    .ok ⟨sortEvents o.events, o.errors⟩
  else
    .error .internal

/-- The events one position contributes: tagged items on an in-range status
with an items list, nothing otherwise. -/
def contribEvents (c : String) (r : SubResponse) : List CalEvent :=
  if isSuccess r.statusCode then
    match r.body.items with
    | some items => tagEvents c items
    | none => []
  else []

/-- The error-list entry one position contributes: one entry exactly when the
status is outside the success range. -/
def contribError (c : String) (r : SubResponse) : Option CalendarError :=
  if isSuccess r.statusCode then none else some ⟨c, r.body⟩

end EventMerger

/-- The time-window filters of a list-events request. -/
structure EventFilters where
  timeMin : String
  timeMax : Option String := none
deriving DecidableEq

namespace BatchRequestBuilder

/-- Uppercase hexadecimal digit for a value below 16. -/
def hexDigitChar (n : Nat) : Char :=
  if n < 10 then Char.ofNat (48 + n) else Char.ofNat (55 + n)

/-- `%HH` percent-escape of one byte. -/
def percentByte (b : Nat) : List Char :=
  ['%', hexDigitChar (b / 16), hexDigitChar (b % 16)]

/-- UTF-8 bytes of a Unicode code point. -/
def utf8BytesOfCode (n : Nat) : List Nat :=
  if n < 128 then [n]
  else if n < 2048 then [192 + n / 64, 128 + n % 64]
  else if n < 65536 then [224 + n / 4096, 128 + (n / 64) % 64, 128 + n % 64]
  else [240 + n / 262144, 128 + (n / 4096) % 64, 128 + (n / 64) % 64, 128 + n % 64]

/-- Characters `encodeURIComponent` leaves unescaped:
ASCII letters, digits, and `- _ . ! ~ * ' ( )`. -/
def isComponentUnreserved (c : Char) : Bool :=
  let n := c.toNat
  (65 ≤ n && n ≤ 90) || (97 ≤ n && n ≤ 122) || (48 ≤ n && n ≤ 57) ||
    n == 45 || n == 95 || n == 46 || n == 33 || n == 126 ||
    n == 42 || n == 39 || n == 40 || n == 41

/-- Modelled from the spec: percent-encoding of a path segment as done by
`encodeURIComponent` (§4.1: "Calendar id must be percent-encoded (notably
`@` → `%40`)"); the BatchRequestBuilder implementation is not among the
provided sources. -/
def percentEncode (s : String) : String :=
  ⟨s.data.flatMap fun c =>
    if isComponentUnreserved c then [c] else (utf8BytesOfCode c.toNat).flatMap percentByte⟩

/-- Characters `URLSearchParams` serialization leaves unescaped:
ASCII letters, digits, and `* - . _` (space becomes `+`). -/
def isFormUnreserved (c : Char) : Bool :=
  let n := c.toNat
  (65 ≤ n && n ≤ 90) || (97 ≤ n && n ≤ 122) || (48 ≤ n && n ≤ 57) ||
    n == 42 || n == 45 || n == 46 || n == 95

/-- Modelled from the spec: query-value encoding as done by
`URLSearchParams.toString` (the scenario of §8 demands
`timeMin=2024-01-01T00%3A00%3A00Z`). -/
def formEncode (s : String) : String :=
  ⟨s.data.flatMap fun c =>
    if c = ' ' then ['+']
    else if isFormUnreserved c then [c]
    else (utf8BytesOfCode c.toNat).flatMap percentByte⟩

/-- Modelled from the spec: the query string of one sub-request (§4.1) —
`singleEvents=true`, `orderBy=startTime`, `timeMin`, and `timeMax` only when
present. -/
def eventsQuery (f : EventFilters) : String :=
  "singleEvents=true&orderBy=startTime&timeMin=" ++ formEncode f.timeMin ++
    (match f.timeMax with
     | some t => "&timeMax=" ++ formEncode t
     | none => "")

/-- Modelled from the spec: the path of one sub-request (§4.1) —
`/calendar/v3/calendars/{urlEncode(calendarId)}/events` plus the query. -/
def eventsPath (cal : String) (f : EventFilters) : String :=
  "/calendar/v3/calendars/" ++ percentEncode cal ++ "/events?" ++ eventsQuery f

/-- Carriage return + line feed. -/
def crlf : String := "\r\n"

/-- Modelled from the spec: one multipart part (§4.1) — boundary delimiter,
`Content-Type: application/http`, `Content-ID: <item{idx}>`, a blank line,
then the request line `GET {path} HTTP/1.1`. -/
def renderPart (boundary : String) (idx : Nat) (path : String) : String :=
  "--" ++ boundary ++ crlf ++
    "Content-Type: application/http" ++ crlf ++
    "Content-ID: <item" ++ toString idx ++ ">" ++ crlf ++ crlf ++
    "GET " ++ path ++ " HTTP/1.1"

/-- The parts for the calendars, carrying a running 0-based position whose
successor becomes the Content-ID index. -/
def mkParts (boundary : String) (f : EventFilters) : Nat → List String → List String
  | _, [] => []
  | i, c :: cs => renderPart boundary (i + 1) (eventsPath c f) :: mkParts boundary f (i + 1) cs

/-- ConfigurationError of the builder (§4.1): empty or oversized input. -/
inductive ConfigFailure where
  | invalidCalendarCount
deriving DecidableEq

/-- Modelled from the spec: `BatchRequestBuilder.build` (§4.1) — rejects an
empty or >50-entry calendar list, otherwise serializes the parts joined by
`\r\n\r\n` with the final boundary `--{boundary}--`. -/
def build (cals : List String) (f : EventFilters) (boundary : String) :
    Except ConfigFailure String :=
  if cals.length = 0 ∨ 50 < cals.length then
    .error .invalidCalendarCount
  else
    .ok (String.intercalate (crlf ++ crlf) (mkParts boundary f 0 cals) ++
      crlf ++ "--" ++ boundary ++ "--")

end BatchRequestBuilder

/-- The resolved shape of the validated `calendarId` argument: a single id or
an array of ids. -/
inductive CalendarIdArg where
  | one (id : String)
  | many (ids : List String)
deriving DecidableEq

/-- Validated list-events arguments (after schema validation, access token
already stripped). -/
structure ValidatedListArgs where
  calendarId : CalendarIdArg
  timeMin : String
  timeMax : Option String := none
deriving DecidableEq

/-- Parameters of a direct single-calendar `events.list` API call. -/
structure EventsListParams where
  calendarId : String
  timeMin : String
  timeMax : Option String
  singleEvents : Bool
  orderBy : String
deriving DecidableEq

/-- One network call performed by the list-events handler: either a direct
`events.list` call or a POST of a batch envelope to the batch endpoint. -/
inductive NetCall where
  | eventsList (p : EventsListParams)
  | batchPost (boundary : String) (body : String)
deriving DecidableEq

/-- The network as an oracle: items answered to a direct list call, and the
parsed sub-responses answered to a batch envelope.  (Transport and multipart
response parsing are collapsed into `batchResponses`.) -/
structure Network where
  listItems : EventsListParams → List CalEvent
  batchResponses : String → List SubResponse

/-- Modelled from the spec: per-event rendering of the result formatter
(§4.5 and the handler tests): `{summary} ({id})` plus an optional location
line. -/
def renderEvent (e : CalEvent) : String :=
  e.summary ++ " (" ++ e.id ++ ")" ++
    (match e.location with
     | some loc => "\nLocation: " ++ loc
     | none => "")

/-- Modelled from the spec: the plain event-list rendering used by the
single-calendar path — no calendar grouping header. -/
def formatEventList (evs : List CalEvent) : String :=
  if evs.isEmpty then "No events found."
  else String.intercalate "\n\n" (evs.map renderEvent)

/-- Modelled from the spec: the trailing error section of the grouped
rendering (§4.5) — errors are never silently dropped. -/
def formatOutcomeErrors (errs : List CalendarError) : String :=
  if errs.isEmpty then ""
  else
    "\n\nErrors:\n" ++
      String.intercalate "\n"
        (errs.map fun er =>
          er.calendarId ++ ": " ++ ((er.error.apiError.map (·.message)).getD "request failed"))

/-- Modelled from the spec: the grouped multi-calendar rendering (§4.5) —
`Found {N} events across {M} calendars:` header, events grouped by calendar
in request order, then the error section. -/
def formatGrouped (cals : List String) (out : BatchOutcome) : String :=
  "Found " ++ toString out.events.length ++ " events across " ++
    toString cals.length ++ " calendars:\n\n" ++
    String.intercalate "\n"
      (cals.map fun c =>
        "Calendar: " ++ c ++ "\n" ++
          formatEventList (out.events.filter fun e => e.calendarId == some c)) ++
    formatOutcomeErrors out.errors

/-- The multipart boundary token used for batch envelopes. -/
def batchBoundary : String := "batch_google_calendar_mcp"

/-- The single-calendar direct call: `singleEvents=true`, `orderBy=startTime`
and the given time window. -/
def directCallParams (c : String) (args : ValidatedListArgs) : EventsListParams :=
  ⟨c, args.timeMin, args.timeMax, true, "startTime"⟩

/-- Modelled from the spec: the single-calendar fallback path (§4.5) — one
ordinary `events.list` call, rendered without a grouping header. -/
def runSingle (net : Network) (args : ValidatedListArgs) (c : String) :
    String × List NetCall :=
  let p := directCallParams c args
  (formatEventList (net.listItems p), [.eventsList p])

/-- Modelled from the spec: the batch path (§2, §4.2) — build the envelope,
POST it once, merge the parsed sub-responses, format grouped. -/
def runBatch (net : Network) (args : ValidatedListArgs) (ids : List String) :
    String × List NetCall :=
  match BatchRequestBuilder.build ids ⟨args.timeMin, args.timeMax⟩ batchBoundary with
  | .error _ => ("Error: invalid calendar count for batch request", [])
  | .ok body =>
    let resps := net.batchResponses body
    match EventMerger.merge ids resps with
    | .error _ =>
      ("Error: internal error: sub-response count mismatch", [.batchPost batchBoundary body])
    | .ok out => (formatGrouped ids out, [.batchPost batchBoundary body])

/-- Modelled from the spec: the list-events handler dispatch (§4.5) — exactly
one requested calendar id (single string or one-element array) takes the
direct path; anything else takes the batch path. -/
def runListEvents (net : Network) (args : ValidatedListArgs) :
    String × List NetCall :=
  match args.calendarId with
  | .one c => runSingle net args c
  | .many [c] => runSingle net args c
  | .many ids => runBatch net args ids

namespace Validator

/-- The raw JSON shape of the `calendarId` argument accepted by the schema:
a string or an array of strings. -/
inductive RawCalendarId where
  | str (s : String)
  | arr (ids : List String)
deriving DecidableEq

/-- Raw list-events arguments before validation. -/
structure RawListArgs where
  calendarId : RawCalendarId
  timeMin : String
  timeMax : Option String := none
deriving DecidableEq

/-- Validation failure reasons. -/
inductive ValidationFailure where
  | calendarIdCount
  | timeFormat
deriving DecidableEq

/-- Value of an ASCII hexadecimal digit. -/
def hexVal (c : Char) : Option Nat :=
  let n := c.toNat
  if 48 ≤ n && n ≤ 57 then some (n - 48)
  else if 65 ≤ n && n ≤ 70 then some (n - 55)
  else if 97 ≤ n && n ≤ 102 then some (n - 87)
  else none

/-- Body of a JSON string after the opening quote: returns the decoded
content and the input remaining after the closing quote. -/
def parseJsonStringBody (fuel : Nat) (cs : List Char) (acc : List Char) :
    Option (String × List Char) :=
  match fuel, cs with
  | 0, _ => none
  | _, [] => none
  | fuel + 1, c :: rest =>
    if c = '"' then some (⟨acc.reverse⟩, rest)
    else if c = '\\' then
      match rest with
      | [] => none
      | e :: more =>
        if e = '"' then parseJsonStringBody fuel more ('"' :: acc)
        else if e = '\\' then parseJsonStringBody fuel more ('\\' :: acc)
        else if e = '/' then parseJsonStringBody fuel more ('/' :: acc)
        else if e = 'b' then parseJsonStringBody fuel more (Char.ofNat 8 :: acc)
        else if e = 'f' then parseJsonStringBody fuel more (Char.ofNat 12 :: acc)
        else if e = 'n' then parseJsonStringBody fuel more ('\n' :: acc)
        else if e = 'r' then parseJsonStringBody fuel more (Char.ofNat 13 :: acc)
        else if e = 't' then parseJsonStringBody fuel more ('\t' :: acc)
        else if e = 'u' then
          match more with
          | h1 :: h2 :: h3 :: h4 :: tail =>
            match hexVal h1, hexVal h2, hexVal h3, hexVal h4 with
            | some a, some b, some c', some d =>
              parseJsonStringBody fuel tail
                (Char.ofNat (((a * 16 + b) * 16 + c') * 16 + d) :: acc)
            | _, _, _, _ => none
          | _ => none
        else none
    else if c.toNat < 32 then none
    else parseJsonStringBody fuel rest (c :: acc)

/-- JSON whitespace skipping. -/
def skipWs : List Char → List Char
  | [] => []
  | c :: rest =>
    if c = ' ' ∨ c = '\t' ∨ c = '\n' ∨ c = Char.ofNat 13 then skipWs rest
    else c :: rest

/-- Comma-separated JSON strings up to the closing bracket; returns the
decoded items and the input remaining after the bracket. -/
def parseArrayItems (fuel : Nat) (cs : List Char) (acc : List String) :
    Option (List String × List Char) :=
  match fuel with
  | 0 => none
  | fuel + 1 =>
    match skipWs cs with
    | '"' :: rest =>
      match parseJsonStringBody (rest.length + 1) rest [] with
      | none => none
      | some (s, rest') =>
        match skipWs rest' with
        | ',' :: more => parseArrayItems fuel more (s :: acc)
        | ']' :: more => some ((s :: acc).reverse, more)
        | _ => none
    | _ => none

/-- Modelled from the spec: `JSON.parse` restricted to the only accepted
shape — a complete JSON array of strings (§6: "a JSON-encoded string that
decodes to such an array"); any other input, malformed JSON included, yields
`none` and the validator falls back to the literal string.  The
ListEventsArgumentsSchema implementation is not among the provided sources;
only its tests are. -/
def jsonDecodeStringArray (s : String) : Option (List String) :=
  match skipWs s.data with
  | '[' :: rest =>
    match skipWs rest with
    | ']' :: tail => if (skipWs tail).isEmpty then some [] else none
    | _ =>
      match parseArrayItems (s.length + 1) rest [] with
      | some (items, tail) => if (skipWs tail).isEmpty then some items else none
      | none => none
  | _ => none

/-- ASCII digit test. -/
def isAsciiDigit (c : Char) : Bool := 48 ≤ c.toNat && c.toNat ≤ 57

/-- A timezone designator: `Z` or `±HH:MM`. -/
def isTimeZoneSuffix : List Char → Bool
  | ['Z'] => true
  | [sign, h1, h2, ':', m1, m2] =>
    (sign == '+' || sign == '-') && isAsciiDigit h1 && isAsciiDigit h2 &&
      isAsciiDigit m1 && isAsciiDigit m2
  | _ => false

/-- Optional fractional seconds followed by a timezone designator. -/
def isFracThenZone : List Char → Bool
  | '.' :: rest =>
    !(rest.takeWhile isAsciiDigit).isEmpty && isTimeZoneSuffix (rest.dropWhile isAsciiDigit)
  | cs => isTimeZoneSuffix cs

/-- Modelled from the spec: ISO-8601 date-time with timezone (§6) —
`YYYY-MM-DDTHH:MM:SS`, optional fractional seconds, then `Z` or `±HH:MM`. -/
def isISODateTime (s : String) : Bool :=
  match s.data with
  | y1 :: y2 :: y3 :: y4 :: '-' :: mo1 :: mo2 :: '-' :: d1 :: d2 :: 'T' ::
      h1 :: h2 :: ':' :: mi1 :: mi2 :: ':' :: s1 :: s2 :: rest =>
    [y1, y2, y3, y4, mo1, mo2, d1, d2, h1, h2, mi1, mi2, s1, s2].all isAsciiDigit &&
      isFracThenZone rest
  | _ => false

/-- Modelled from the spec: the 1–50 bound on calendar-id arrays (§6). -/
def checkArray (ids : List String) : Except ValidationFailure CalendarIdArg :=
  if ids.length = 0 ∨ 50 < ids.length then .error .calendarIdCount
  else .ok (.many ids)

/-- Modelled from the spec: resolution of the dynamic `calendarId` shape
(§6): a plain string is first tried as a JSON array of strings; decode
failure falls back to the literal string, never an error. -/
def resolveCalendarId : RawCalendarId → Except ValidationFailure CalendarIdArg
  | .str s =>
    match jsonDecodeStringArray s with
    | some ids => checkArray ids
    | none => .ok (.one s)
  | .arr ids => checkArray ids

/-- Modelled from the spec: `ListEventsArgumentsSchema.parse` (§6) —
resolves the calendar id shape and enforces the ISO-8601-with-timezone
format on `timeMin` and, when present, `timeMax`. -/
def parseListArgs (raw : RawListArgs) : Except ValidationFailure ValidatedListArgs :=
  match resolveCalendarId raw.calendarId with
  | .error e => .error e
  | .ok cal =>
    if isISODateTime raw.timeMin then
      match raw.timeMax with
      | none => .ok ⟨cal, raw.timeMin, none⟩
      | some t =>
        if isISODateTime t then .ok ⟨cal, raw.timeMin, some t⟩
        else .error .timeFormat
    else .error .timeFormat

end Validator

/-! ## Server error boundary (from `index.ts`): the CallToolRequestSchema
handler wraps `handleCallTool` in try/catch and converts any thrown value
into a text result `Error: {message}`. -/

/-- A JavaScript value as it appears when thrown: an `Error` instance
(carrying a message) or any other value (carried by its `String(…)` form). -/
inductive JsValue where
  | errorObj (message : String)
  | str (s : String)
  | num (n : Int)
  | other (display : String)
deriving DecidableEq

/-- `e instanceof Error ? e.message : String(e)` from the source. -/
def jsValueText : JsValue → String
  | .errorObj m => m
  | .str s => s
  | .num n => toString n
  | .other d => d

/-- One item of a tool result's content. -/
structure TextContent where
  type : String
  text : String
deriving DecidableEq

/-- A call-tool result envelope. -/
structure CallToolResult where
  content : List TextContent
deriving DecidableEq

/-- The try/catch boundary of the CallToolRequestSchema handler in
`index.ts`: a thrown value becomes a single-text-item success envelope
`Error: {message}`; a normal result passes through.  The function is total:
no thrown value escapes to the transport. -/
def callToolBoundary (outcome : Except JsValue CallToolResult) : CallToolResult :=
  match outcome with
  | .ok r => r
  | .error e => ⟨[⟨"text", "Error: " ++ jsValueText e⟩]⟩

/-! ## Google API error handling (from `BaseToolHandler.ts`). -/

/-- `response.data` of a `GaxiosError`: the JSON error payload, whose
`error` field is a string when present. -/
structure GaxiosResponseData where
  error : Option String := none
deriving DecidableEq

/-- `response` of a `GaxiosError`. -/
structure GaxiosResponse where
  data : Option GaxiosResponseData := none
deriving DecidableEq

/-- A value thrown inside a handler's API call: a `GaxiosError` (with its
optional response), a plain `Error`, or any other value. -/
inductive ThrownError where
  | gaxios (message : String) (response : Option GaxiosResponse)
  | jsError (message : String)
  | otherValue (display : String)
deriving DecidableEq

/-- The condition tested by the source:
`error instanceof GaxiosError && error.response?.data?.error === 'invalid_grant'`. -/
def invalidGrantDetected : ThrownError → Bool
  | .gaxios _ response => ((response.bind (·.data)).bind (·.error)) == some "invalid_grant"
  | _ => false

/-- The message of the error surfaced for an invalid or expired token,
verbatim from `BaseToolHandler.handleGoogleApiError`. -/
def reAuthMessage : String :=
  "Google API Error: Authentication token is invalid or expired. Please re-run the authentication process (e.g., `npm run auth`)."

/-- `BaseToolHandler.handleGoogleApiError` from the source: on a
`GaxiosError` whose `response?.data?.error` is `invalid_grant`, throw a new
`Error` with the re-authentication message; otherwise re-throw the original
value.  The returned value is what gets thrown — the function never returns
normally and performs no API call (hence no retry). -/
def handleGoogleApiError (e : ThrownError) : ThrownError :=
  if invalidGrantDetected e then .jsError reAuthMessage else e

/-! ## Per-token client cache (from `clientManager.ts`). -/

/-- An OAuth2 client.  JavaScript object identity is modelled by an
allocation number `id`; `accessToken` is the credential set by
`setCredentials`. -/
structure OAuthClient where
  id : Nat
  accessToken : Option String := none
deriving DecidableEq

/-- The `ClientManager`'s state: the `clients` record (keyed by bearer
token) and the next allocation number. -/
structure ClientManagerState where
  clients : List (String × OAuthClient) := []
  nextClientId : Nat := 0
deriving DecidableEq

/-- `ClientManager.getClient` from the source: return the cached client for
the token if present; otherwise create a fresh client, cache it under the
token, and set the token as its access-token credential.  In the source the
cached and the returned references alias one mutable object, so the cached
entry carries the credential as well — modelled by storing the credentialed
client. -/
def getClient (s : ClientManagerState) (accessToken : String) :
    OAuthClient × ClientManagerState :=
  match s.clients.lookup accessToken with
  | some cached => (cached, s)
  | none =>
    let fresh : OAuthClient := { id := s.nextClientId, accessToken := some accessToken }
    (fresh, { clients := (accessToken, fresh) :: s.clients, nextClientId := s.nextClientId + 1 })

/-- A sequence of `getClient` calls (with arbitrary tokens), threading the
manager state: the process lifetime of the cache. -/
def runGetClients (s : ClientManagerState) : List String → ClientManagerState
  | [] => s
  | t :: ts => runGetClients (getClient s t).2 ts

/-! ## Access-token stripping by tool handlers (from `DeleteEventHandler.ts`
and `ListCalendarsHandler`). -/

/-- Validated delete-event arguments: the schema guarantees the access
token and the target ids. -/
structure DeleteEventValidArgs where
  accessToken : String
  calendarId : String
  eventId : String
deriving DecidableEq

/-- The argument record after `delete validArgs.accessToken`: the token
field is gone, every other field untouched. -/
structure DeleteEventForwarded where
  accessToken : Option String
  calendarId : String
  eventId : String
deriving DecidableEq

/-- The `calendar.events.delete` call's argument object, as built by the
source: only `calendarId` and `eventId`. -/
structure EventsDeleteCall where
  calendarId : String
  eventId : String
deriving DecidableEq

/-- `delete (validArgs as any).accessToken` from the source. -/
def stripAccessToken (v : DeleteEventValidArgs) : DeleteEventForwarded :=
  { accessToken := none, calendarId := v.calendarId, eventId := v.eventId }

/-- Everything one run of `DeleteEventHandler.runTool` does: the argument
record forwarded after the delete, the API call issued, the client used, the
final manager state, and the tool result. -/
structure DeleteEventRun where
  forwarded : DeleteEventForwarded
  apiCall : EventsDeleteCall
  clientUsed : OAuthClient
  finalState : ClientManagerState
  result : CallToolResult
deriving DecidableEq

/-- `DeleteEventHandler.runTool` from the source: read the access token from
the validated arguments, delete the field, obtain the client from the
manager with the token, and call `calendar.events.delete` with the remaining
fields. -/
def deleteEventRunTool (v : DeleteEventValidArgs) (s : ClientManagerState) :
    DeleteEventRun :=
  let accessToken := v.accessToken
  let forwarded := stripAccessToken v
  let c := getClient s accessToken
  { forwarded := forwarded
    apiCall := { calendarId := forwarded.calendarId, eventId := forwarded.eventId }
    clientUsed := c.1
    finalState := c.2
    result := ⟨[⟨"text", "Event deleted successfully"⟩]⟩ }

/-- Validated list-calendars arguments. -/
structure ListCalendarsValidArgs where
  accessToken : String
deriving DecidableEq

/-- The list-calendars argument record after `delete validArgs.accessToken`. -/
structure ListCalendarsForwarded where
  accessToken : Option String
deriving DecidableEq

/-- One entry of the calendar list returned by the API. -/
structure CalendarListEntry where
  summary : Option String := none
  id : Option String := none
deriving DecidableEq

/-- `ListCalendarsHandler.formatCalendarList` from the source. -/
def formatCalendarList (cals : List CalendarListEntry) : String :=
  String.intercalate "\n"
    (cals.map fun c => (c.summary.getD "Untitled") ++ " (" ++ (c.id.getD "no-id") ++ ")")

/-- Everything one run of `ListCalendarsHandler.runTool` does. -/
structure ListCalendarsRun where
  forwarded : ListCalendarsForwarded
  clientUsed : OAuthClient
  finalState : ClientManagerState
  result : CallToolResult
deriving DecidableEq

/-- `ListCalendarsHandler.runTool` from the source: read the access token,
delete the field, obtain the client from the manager, call
`calendarList.list` (which takes no arguments), and format the entries. -/
def listCalendarsRunTool (v : ListCalendarsValidArgs) (s : ClientManagerState)
    (items : List CalendarListEntry) : ListCalendarsRun :=
  let accessToken := v.accessToken
  let forwarded : ListCalendarsForwarded := ⟨none⟩
  let c := getClient s accessToken
  ⟨forwarded, c.1, c.2, ⟨[⟨"text", formatCalendarList items⟩]⟩⟩

/-- `timeMax` is valid when absent or in ISO format. -/
def timeMaxOk : Option String → Bool
  | none => true
  | some t => Validator.isISODateTime t

/-! ## Concrete scenario inputs used by the witnesses. -/

/-- A timed event on 2024-01-15 (from the handler tests). -/
def evtTimed : CalEvent :=
  { id := "timed", summary := "Timed Event",
    start := some { dateTime := some "2024-01-15T09:00:00Z" },
    finish := some { dateTime := some "2024-01-15T10:00:00Z" } }

/-- An all-day event on 2024-01-15 (from the handler tests). -/
def evtAllDay : CalEvent :=
  { id := "allday", summary := "All Day Event",
    start := some { date := some "2024-01-15" },
    finish := some { date := some "2024-01-16" } }

/-- A success event for the partial-failure scenario. -/
def evtOne : CalEvent :=
  { id := "event1", summary := "Success Event",
    start := some { dateTime := some "2024-01-15T09:00:00Z" },
    finish := some { dateTime := some "2024-01-15T10:00:00Z" } }

/-- A second success event for the partial-failure scenario. -/
def evtThree : CalEvent :=
  { id := "event3", summary := "Third Calendar Event",
    start := some { dateTime := some "2024-01-15T18:00:00Z" },
    finish := some { dateTime := some "2024-01-15T19:00:00Z" } }

/-- The body of a 404 sub-response. -/
def body404 : ResponseBody :=
  { apiError := some { code := 404, message := "Calendar not found" } }

/-- Partial-failure scenario: three calendars, the second 404s. -/
def c1Cals : List String := ["primary", "nonexistent@example.com", "third@example.com"]

/-- Sub-responses of the partial-failure scenario. -/
def c1Resps : List SubResponse :=
  [⟨200, { items := some [evtOne] }⟩,
   ⟨404, body404⟩,
   ⟨200, { items := some [evtThree] }⟩]

/-- Sort scenario: calendar 1 answers the timed event, calendar 2 the
all-day event on the same day. -/
def c2Cals : List String := ["cal1", "cal2"]

/-- Sub-responses of the sort scenario. -/
def c2Resps : List SubResponse :=
  [⟨200, { items := some [evtTimed] }⟩,
   ⟨200, { items := some [evtAllDay] }⟩]

/-- Expected merge outcome of the sort scenario: the all-day event sorts
first. -/
def c2Out : BatchOutcome :=
  { events := [{ evtAllDay with calendarId := some "cal2" },
               { evtTimed with calendarId := some "cal1" }],
    errors := [] }

/-- A network oracle answering empty item lists and two empty success
sub-responses. -/
def netTwoEmpty : Network :=
  { listItems := fun _ => []
    batchResponses := fun _ => [⟨200, { items := some [] }⟩, ⟨200, { items := some [] }⟩] }

/-- A network oracle answering one timed event on the direct path. -/
def netSingle : Network :=
  { listItems := fun _ => [evtTimed]
    batchResponses := fun _ => [] }

/-! ## Theorems: the string comparator. -/

theorem lexLe_cons_self (x : Char) (xs ys : List Char) :
    lexLe (x :: xs) (x :: ys) = lexLe xs ys := by
  simp [lexLe]

theorem lexLe_total (a b : List Char) : lexLe a b = true ∨ lexLe b a = true := by
  induction a generalizing b with
  | nil => exact .inl rfl
  | cons x xs ih =>
    cases b with
    | nil => exact .inr rfl
    | cons y ys =>
      rcases lt_trichotomy x y with h | h | h
      · left; simp [lexLe, h]
      · subst h
        rw [lexLe_cons_self, lexLe_cons_self]
        exact ih ys
      · right; simp [lexLe, h]

theorem lexLe_iff_not_lex (a b : List Char) :
    lexLe a b = true ↔ ¬ List.Lex (· < ·) b a := by
  induction a generalizing b with
  | nil =>
    cases b <;> simp [lexLe]
  | cons x xs ih =>
    cases b with
    | nil =>
      simp only [lexLe, Bool.false_eq_true, false_iff, not_not]
      exact List.Lex.nil
    | cons y ys =>
      by_cases hxy : x < y
      · simp only [lexLe, if_pos hxy, true_iff]
        intro h
        cases h with
        | rel h' => exact absurd hxy (asymm h')
        | cons _ => exact lt_irrefl x hxy
      · by_cases heq : x = y
        · subst heq
          rw [lexLe_cons_self, ih ys]
          constructor
          · intro h hl
            cases hl with
            | rel h' => exact lt_irrefl x h'
            | cons h' => exact h h'
          · intro h hl
            exact h (List.Lex.cons hl)
        · simp only [lexLe, if_neg hxy, if_neg heq, Bool.false_eq_true, false_iff, not_not]
          have : y < x := by
            rcases lt_trichotomy x y with h | h | h
            · exact absurd h hxy
            · exact absurd h heq
            · exact h
          exact List.Lex.rel this

theorem strLe_iff_le (a b : String) : strLe a b = true ↔ a ≤ b := by
  rw [strLe, lexLe_iff_not_lex, ← not_lt]
  exact not_congr String.lt_iff_toList_lt.symm

theorem str_lt_append (s t : String) (h : t ≠ "") : s < s ++ t := by
  rw [String.lt_iff_toList_lt]
  show List.Lex (· < ·) s.data (s ++ t).data
  rw [String.data_append]
  have ht : t.data ≠ [] := by
    intro hd
    apply h
    cases t with
    | mk d => cases hd; rfl
  induction s.data with
  | nil =>
    cases hd : t.data with
    | nil => exact absurd hd ht
    | cons c cs => simpa [hd] using List.Lex.nil
  | cons a as ih => exact List.Lex.cons ih

/-! ## Theorems: the merger's sort. -/

namespace EventMerger

theorem eventLe_total (a b : CalEvent) : eventLe a b ∨ eventLe b a :=
  lexLe_total (eventKey a).data (eventKey b).data

theorem eventLe_trans (a b c : CalEvent) (hab : eventLe a b) (hbc : eventLe b c) :
    eventLe a c :=
  (strLe_iff_le _ _).mpr (le_trans ((strLe_iff_le _ _).mp hab) ((strLe_iff_le _ _).mp hbc))

theorem sortEvents_sorted (l : List CalEvent) : (sortEvents l).Pairwise eventLe :=
  @List.sorted_insertionSort CalEvent eventLe _ ⟨eventLe_total⟩ ⟨eventLe_trans⟩ l

theorem sortEvents_sorted_keys (l : List CalEvent) :
    (sortEvents l).Pairwise (fun a b => eventKey a ≤ eventKey b) :=
  (sortEvents_sorted l).imp fun h => (strLe_iff_le _ _).mp h

theorem sortEvents_perm (l : List CalEvent) : (sortEvents l).Perm l :=
  List.perm_insertionSort eventLe l

theorem eventKey_of_date (e : CalEvent) (st : EventStart) (d : String)
    (h1 : e.start = some st) (h2 : st.dateTime = none) (h3 : st.date = some d) :
    eventKey e = d := by
  simp [eventKey, h1, h2, h3]

theorem eventKey_of_dateTime (e : CalEvent) (st : EventStart) (s : String)
    (h1 : e.start = some st) (h2 : st.dateTime = some s) :
    eventKey e = s := by
  simp [eventKey, h1, h2]

theorem sortEvents_filter_key (l : List CalEvent) (k : String) :
    (sortEvents l).filter (fun e => eventKey e == k)
      = l.filter (fun e => eventKey e == k) := by
  have hmem : ∀ a ∈ l.filter (fun e => eventKey e == k), eventKey a = k := by
    intro a ha
    simpa using List.of_mem_filter ha
  have hpw : (l.filter (fun e => eventKey e == k)).Pairwise eventLe := by
    apply List.pairwise_of_forall_mem_list
    intro a ha b hb
    apply (strLe_iff_le _ _).mpr
    rw [hmem a ha, hmem b hb]
  have hsub : List.Sublist (l.filter (fun e => eventKey e == k)) (sortEvents l) :=
    List.sublist_insertionSort hpw (List.filter_sublist l)
  have hsub2 : List.Sublist (l.filter (fun e => eventKey e == k))
      ((sortEvents l).filter (fun e => eventKey e == k)) := by
    have h2 := List.Sublist.filter (fun e => eventKey e == k) hsub
    rwa [List.filter_filter, show ∀ p : CalEvent → Bool, (fun e => p e && p e) = p from
      fun p => funext fun e => Bool.and_self (p e)] at h2
  have hperm : ((sortEvents l).filter (fun e => eventKey e == k)).Perm
      (l.filter (fun e => eventKey e == k)) :=
    (sortEvents_perm l).filter _
  exact ((hsub2.eq_of_length hperm.length_eq.symm)).symm

/-- In a list sorted by keys, an event whose key is a strict lexicographic
prefix of another event's key sits at a strictly earlier position. -/
theorem dateOnly_position_lt (l : List CalEvent)
    (hs : l.Pairwise (fun a b => eventKey a ≤ eventKey b))
    (i j : Fin l.length) (d r : String) (st st' : EventStart)
    (hi1 : (l.get i).start = some st) (hi2 : st.dateTime = none)
    (hi3 : st.date = some d)
    (hj1 : (l.get j).start = some st') (hj2 : st'.dateTime = some (d ++ r))
    (hr : r ≠ "") : i.val < j.val := by
  have hki : eventKey (l.get i) = d := eventKey_of_date _ st d hi1 hi2 hi3
  have hkj : eventKey (l.get j) = d ++ r := eventKey_of_dateTime _ st' (d ++ r) hj1 hj2
  have hlt : d < d ++ r := str_lt_append d r hr
  rcases Nat.lt_trichotomy i.val j.val with h | h | h
  · exact h
  · exfalso
    have heq : l.get i = l.get j := by
      congr 1
      exact Fin.ext h
    rw [heq, hj1] at hi1
    have hst : st' = st := Option.some_inj.mp hi1
    rw [← hst] at hi2
    rw [hi2] at hj2
    exact Option.noConfusion hj2
  · exfalso
    have hle := List.pairwise_iff_get.mp hs j i h
    rw [hki, hkj] at hle
    exact absurd hle (not_le_of_lt hlt)

theorem collect_eq (cals : List String) (resps : List SubResponse) :
    collect cals resps =
      ⟨(cals.zip resps).flatMap fun p => contribEvents p.1 p.2,
       (cals.zip resps).filterMap fun p => contribError p.1 p.2⟩ := by
  induction cals generalizing resps with
  | nil => simp [collect]
  | cons c cs ih =>
    cases resps with
    | nil => simp [collect]
    | cons r rs =>
      simp only [collect, ih rs, List.zip_cons_cons, List.flatMap_cons, List.filterMap_cons,
        contribEvents, contribError]
      by_cases hs : isSuccess r.statusCode
      · cases hitems : r.body.items <;> simp [hs, hitems]
      · simp [hs]

theorem merge_eq_ok (cals : List String) (resps : List SubResponse)
    (h : cals.length = resps.length) :
    merge cals resps =
      .ok ⟨sortEvents (collect cals resps).events, (collect cals resps).errors⟩ := by
  simp [merge, h]

/-- Conversely, a successful merge forces equal lengths and determines the
outcome. -/
theorem merge_ok_inv (cals : List String) (resps : List SubResponse)
    (out : BatchOutcome) (ho : merge cals resps = .ok out) :
    out = ⟨sortEvents (collect cals resps).events, (collect cals resps).errors⟩ := by
  by_cases h : cals.length = resps.length
  · rw [merge_eq_ok cals resps h] at ho
    exact (Except.ok.inj ho).symm
  · simp [merge, h] at ho

end EventMerger

/-! ## Theorems: the batch request builder. -/

namespace BatchRequestBuilder

theorem mkParts_eq (boundary : String) (f : EventFilters) (i : Nat) (cals : List String) :
    mkParts boundary f i cals =
      (List.enumFrom i cals).map fun p => renderPart boundary (p.1 + 1) (eventsPath p.2 f) := by
  induction cals generalizing i with
  | nil => rfl
  | cons c cs ih => simp [mkParts, List.enumFrom, ih]

end BatchRequestBuilder

/-! ## Theorems: the client cache. -/

theorem getClient_of_cached (s : ClientManagerState) (t : String) (c : OAuthClient)
    (h : s.clients.lookup t = some c) : getClient s t = (c, s) := by
  simp [getClient, h]

theorem getClient_caches (s : ClientManagerState) (t : String) :
    ((getClient s t).2).clients.lookup t = some (getClient s t).1 := by
  unfold getClient
  cases hl : s.clients.lookup t with
  | some cached => simpa using hl
  | none => simp [List.lookup]

theorem lookup_runGetClients (s : ClientManagerState) (t : String) (c : OAuthClient)
    (h : s.clients.lookup t = some c) (toks : List String) :
    (runGetClients s toks).clients.lookup t = some c := by
  induction toks generalizing s with
  | nil => exact h
  | cons t' ts ih =>
    show (runGetClients (getClient s t').2 ts).clients.lookup t = some c
    apply ih
    unfold getClient
    cases hl : s.clients.lookup t' with
    | some cached => simpa using h
    | none =>
      have hne : (t == t') = false := by
        apply beq_eq_false_iff_ne.mpr
        intro he
        rw [he] at h
        rw [h] at hl
        exact Option.noConfusion hl
      simpa [List.lookup, hne] using h

/-! ## The claims. -/

/-- C1 (amended): for equal-length `calendarIds`/`subResponses`, the merge
succeeds; the accumulated (pre-sort) event list is exactly the concatenation,
in input order, of the tagged items of the positions whose status is in
200–299 and whose body has an items list; the outcome's error list has
exactly one entry `{calendarId, error: body}` per position whose status is
outside 200–299 (a success-range position without an items list contributes
neither an event nor an error); and the outcome's event list is a
permutation of the accumulated one, so a failing position never removes
events contributed by any other position. -/
theorem claim_C1_amended (cals : List String) (resps : List SubResponse)
    (h : cals.length = resps.length) :
    ∃ out, EventMerger.merge cals resps = .ok out
      ∧ (EventMerger.collect cals resps).events
          = ((cals.zip resps).flatMap fun p => EventMerger.contribEvents p.1 p.2)
      ∧ out.errors = ((cals.zip resps).filterMap fun p => EventMerger.contribError p.1 p.2)
      ∧ out.events.Perm ((cals.zip resps).flatMap fun p => EventMerger.contribEvents p.1 p.2) := by
  refine ⟨_, EventMerger.merge_eq_ok cals resps h, ?_, ?_, ?_⟩
  · rw [EventMerger.collect_eq]
  · show (EventMerger.collect cals resps).errors = _
    rw [EventMerger.collect_eq]
  · show (EventMerger.sortEvents (EventMerger.collect cals resps).events).Perm _
    rw [EventMerger.collect_eq]
    exact EventMerger.sortEvents_perm _

/-- C1 counterexample: a position with statusCode 200 whose body has no
items list contributes no entry to the error list, refuting the claim that
every position that is not a success-with-items contributes exactly one
error entry. -/
theorem claim_C1_counterexample :
    EventMerger.merge ["a"] [⟨200, ⟨none, none⟩⟩] = .ok ⟨[], []⟩
    ∧ ¬ ∃ out, EventMerger.merge ["a"] [⟨200, ⟨none, none⟩⟩] = .ok out
        ∧ out.errors = [⟨"a", (⟨none, none⟩ : ResponseBody)⟩] := by
  refine ⟨rfl, ?_⟩
  rintro ⟨out, hout, herr⟩
  have h : EventMerger.merge ["a"] [⟨200, ⟨none, none⟩⟩] = .ok ⟨[], []⟩ := rfl
  rw [h] at hout
  have hinj := Except.ok.inj hout
  rw [← hinj] at herr
  simp at herr

/-- C1 witness: three calendars where sub-response 2 is a 404 — the merged
events come only from calendars 1 and 3 (with their calendarId tags), the
error list has exactly the one entry for calendar 2, and the amended
characterization holds at this input. -/
theorem claim_C1_witness :
    EventMerger.merge c1Cals c1Resps =
      .ok ⟨[{ evtOne with calendarId := some "primary" },
            { evtThree with calendarId := some "third@example.com" }],
           [⟨"nonexistent@example.com", body404⟩]⟩
    ∧ ∃ out, EventMerger.merge c1Cals c1Resps = .ok out
        ∧ (EventMerger.collect c1Cals c1Resps).events
            = ((c1Cals.zip c1Resps).flatMap fun p => EventMerger.contribEvents p.1 p.2)
        ∧ out.errors = ((c1Cals.zip c1Resps).filterMap fun p => EventMerger.contribError p.1 p.2)
        ∧ out.events.Perm ((c1Cals.zip c1Resps).flatMap fun p => EventMerger.contribEvents p.1 p.2) :=
  ⟨rfl, claim_C1_amended c1Cals c1Resps rfl⟩

/-- C2: a successful merge's event list is sorted by the start-time key
(`start.dateTime` if present, else `start.date`, else `""`) under the
lexicographic string order; it is stable (for every key, the merged events
with that key appear exactly as in the accumulation order); and every
date-only event on day `d` sits strictly before every event whose
`start.dateTime` extends `d` — in particular a `start.date` of
`"2024-01-15"` sorts before a `start.dateTime` of
`"2024-01-15T09:00:00Z"`. -/
theorem claim_C2 (cals : List String) (resps : List SubResponse)
    (out : BatchOutcome) (ho : EventMerger.merge cals resps = .ok out) :
    out.events.Pairwise (fun a b => EventMerger.eventKey a ≤ EventMerger.eventKey b)
    ∧ (∀ k : String, out.events.filter (fun e => EventMerger.eventKey e == k)
        = (EventMerger.collect cals resps).events.filter
            (fun e => EventMerger.eventKey e == k))
    ∧ ∀ (i j : Fin out.events.length) (d r : String) (st st' : EventStart),
        (out.events.get i).start = some st → st.dateTime = none → st.date = some d →
        (out.events.get j).start = some st' → st'.dateTime = some (d ++ r) → r ≠ "" →
        i.val < j.val := by
  have hout := EventMerger.merge_ok_inv cals resps out ho
  subst hout
  refine ⟨EventMerger.sortEvents_sorted_keys _,
    fun k => EventMerger.sortEvents_filter_key _ k, ?_⟩
  intro i j d r st st' hi1 hi2 hi3 hj1 hj2 hr
  exact EventMerger.dateOnly_position_lt _ (EventMerger.sortEvents_sorted_keys _)
    i j d r st st' hi1 hi2 hi3 hj1 hj2 hr

/-- C2 witness: merging the timed event (calendar 1) and the all-day event
(calendar 2) on the same day places the all-day event first, and the general
theorem applied at this input puts index 0 (the all-day event) strictly
before index 1 (the timed event). -/
theorem claim_C2_witness :
    EventMerger.merge c2Cals c2Resps = .ok c2Out ∧ (0 : Nat) < 1 := by
  have h : EventMerger.merge c2Cals c2Resps = .ok c2Out := rfl
  refine ⟨h, ?_⟩
  exact (claim_C2 c2Cals c2Resps c2Out h).2.2 ⟨0, by decide⟩ ⟨1, by decide⟩
    "2024-01-15" "T09:00:00Z" ⟨none, some "2024-01-15"⟩
    ⟨some "2024-01-15T09:00:00Z", none⟩ rfl rfl rfl rfl rfl (by decide)

/-- C3: for 1–50 calendar ids the builder succeeds, and its body is the
CRLF-CRLF-join of per-position parts — part `i` (0-based) being the boundary
delimiter, `Content-Type: application/http`, `Content-ID: <item{i+1}>`, a
blank line, and `GET {path of calendarIds[i]} HTTP/1.1` — followed by the
final `--{boundary}--`; so Content-ID index N corresponds to
calendarIds[N-1]. -/
theorem claim_C3 (cals : List String) (f : EventFilters) (boundary : String)
    (h1 : 1 ≤ cals.length) (h2 : cals.length ≤ 50) :
    BatchRequestBuilder.build cals f boundary =
      .ok (String.intercalate (BatchRequestBuilder.crlf ++ BatchRequestBuilder.crlf)
            (cals.enum.map fun p =>
              "--" ++ boundary ++ BatchRequestBuilder.crlf ++
              "Content-Type: application/http" ++ BatchRequestBuilder.crlf ++
              "Content-ID: <item" ++ toString (p.1 + 1) ++ ">" ++
              BatchRequestBuilder.crlf ++ BatchRequestBuilder.crlf ++
              "GET " ++ BatchRequestBuilder.eventsPath p.2 f ++ " HTTP/1.1")
          ++ BatchRequestBuilder.crlf ++ "--" ++ boundary ++ "--") := by
  have hne : ¬ (cals.length = 0 ∨ 50 < cals.length) := by omega
  simp only [BatchRequestBuilder.build, if_neg hne]
  rw [BatchRequestBuilder.mkParts_eq]
  rfl

set_option maxRecDepth 8192 in
/-- C3 witness: the scenario inputs `["primary", "work@example.com"]` with
only `timeMin` produce, via the theorem, the exact multipart body — with
`work@example.com` percent-encoded as `work%40example.com`, colons in
`timeMin` encoded as `%3A`, no `timeMax` parameter, `item1`/`item2`
Content-IDs in input order, and the closing `--batch_boundary_test--`. -/
theorem claim_C3_witness :
    BatchRequestBuilder.build ["primary", "work@example.com"]
        ⟨"2024-01-01T00:00:00Z", none⟩ "batch_boundary_test" =
      .ok ("--batch_boundary_test\r\nContent-Type: application/http\r\nContent-ID: <item1>\r\n\r\nGET /calendar/v3/calendars/primary/events?singleEvents=true&orderBy=startTime&timeMin=2024-01-01T00%3A00%3A00Z HTTP/1.1\r\n\r\n--batch_boundary_test\r\nContent-Type: application/http\r\nContent-ID: <item2>\r\n\r\nGET /calendar/v3/calendars/work%40example.com/events?singleEvents=true&orderBy=startTime&timeMin=2024-01-01T00%3A00%3A00Z HTTP/1.1\r\n--batch_boundary_test--") :=
  (claim_C3 ["primary", "work@example.com"] ⟨"2024-01-01T00:00:00Z", none⟩
    "batch_boundary_test" (by decide) (by decide)).trans rfl

/-- When the envelope builds, the batch path's whole trace is the one POST
of that envelope, whatever the sub-responses and the merge outcome. -/
theorem runBatch_trace (net : Network) (args : ValidatedListArgs) (ids : List String)
    (body : String)
    (hbuild : BatchRequestBuilder.build ids ⟨args.timeMin, args.timeMax⟩ batchBoundary
      = .ok body) :
    (runBatch net args ids).2 = [.batchPost batchBoundary body] := by
  simp only [runBatch, hbuild]
  cases hm : EventMerger.merge ids (net.batchResponses body) <;> simp [hm]

/-- C4: for 2–50 requested calendar ids, one run of the batch list-events
path performs exactly one network call — the single POST of the successfully
built batch envelope to the batch endpoint — whatever the number of
calendars. -/
theorem claim_C4 (net : Network) (args : ValidatedListArgs) (ids : List String)
    (hid : args.calendarId = .many ids) (h2 : 2 ≤ ids.length) (h50 : ids.length ≤ 50) :
    ∃ body,
      BatchRequestBuilder.build ids ⟨args.timeMin, args.timeMax⟩ batchBoundary = .ok body
      ∧ (runListEvents net args).2 = [.batchPost batchBoundary body] := by
  obtain ⟨cal, tmin, tmax⟩ := args
  simp only at hid
  subst hid
  rcases ids with _ | ⟨a, _ | ⟨b, rest⟩⟩
  · simp at h2
  · simp at h2
  · have hne : ¬ ((a :: b :: rest).length = 0 ∨ 50 < (a :: b :: rest).length) := by
      simp at h50 ⊢
      omega
    have hbuild : BatchRequestBuilder.build (a :: b :: rest) ⟨tmin, tmax⟩ batchBoundary =
        .ok (String.intercalate (BatchRequestBuilder.crlf ++ BatchRequestBuilder.crlf)
              (BatchRequestBuilder.mkParts batchBoundary ⟨tmin, tmax⟩ 0 (a :: b :: rest)) ++
            BatchRequestBuilder.crlf ++ "--" ++ batchBoundary ++ "--") := by
      simp only [BatchRequestBuilder.build, if_neg hne]
    refine ⟨_, hbuild, ?_⟩
    show (runBatch net ⟨.many (a :: b :: rest), tmin, tmax⟩ (a :: b :: rest)).2 = _
    exact runBatch_trace net ⟨.many (a :: b :: rest), tmin, tmax⟩ (a :: b :: rest) _ hbuild

/-- C4 witness: two calendars, one POST of the built envelope — the trace
holds exactly one network call. -/
theorem claim_C4_witness :
    ∃ body,
      BatchRequestBuilder.build ["a", "b"] ⟨"2024-01-01T00:00:00Z", none⟩ batchBoundary
        = .ok body
      ∧ (runListEvents netTwoEmpty
          ⟨.many ["a", "b"], "2024-01-01T00:00:00Z", none⟩).2
          = [.batchPost batchBoundary body] :=
  claim_C4 netTwoEmpty ⟨.many ["a", "b"], "2024-01-01T00:00:00Z", none⟩
    ["a", "b"] rfl (by decide) (by decide)

/-- C5: for exactly one requested calendar id — a single string or a
one-element array — the handler performs one ordinary direct `events.list`
call with `singleEvents = true`, `orderBy = startTime` and the given time
window, formats it with the plain per-event rendering (no calendar grouping
header), and never touches the batch path. -/
theorem claim_C5 (net : Network) (args : ValidatedListArgs) (c : String)
    (h : args.calendarId = .one c ∨ args.calendarId = .many [c]) :
    runListEvents net args =
      (formatEventList (net.listItems ⟨c, args.timeMin, args.timeMax, true, "startTime"⟩),
       [.eventsList ⟨c, args.timeMin, args.timeMax, true, "startTime"⟩]) := by
  obtain ⟨cal, tmin, tmax⟩ := args
  simp only at h
  rcases h with h | h <;> (subst h; rfl)

/-- C5 witness: a one-element calendar array takes the direct path — one
`events.list` call with the expected parameters, no batch call, plain
rendering. -/
theorem claim_C5_witness :
    runListEvents netSingle ⟨.many ["primary"], "2024-01-01T00:00:00Z", none⟩ =
      (formatEventList [evtTimed],
       [.eventsList ⟨"primary", "2024-01-01T00:00:00Z", none, true, "startTime"⟩]) :=
  claim_C5 netSingle ⟨.many ["primary"], "2024-01-01T00:00:00Z", none⟩ "primary" (.inr rfl)

/-- C6: the validator accepts a single string (a string whose JSON decoding
fails is taken as the literal string and never rejected), a JSON-encoded
string decoding to an array of 1–50 strings, and a direct array of 1–50
strings; it rejects an empty array and an array of more than 50 entries,
and rejects any `timeMin`/`timeMax` that is not ISO-8601 date-time with
timezone. -/
theorem claim_C6 (s : String) (ids : List String) (tmin : String) (tmax : Option String) :
    (Validator.isISODateTime tmin = true → timeMaxOk tmax = true →
      ((Validator.jsonDecodeStringArray s = none →
          Validator.parseListArgs ⟨.str s, tmin, tmax⟩ = .ok ⟨.one s, tmin, tmax⟩)
       ∧ (Validator.jsonDecodeStringArray s = some ids →
          1 ≤ ids.length → ids.length ≤ 50 →
          Validator.parseListArgs ⟨.str s, tmin, tmax⟩ = .ok ⟨.many ids, tmin, tmax⟩)
       ∧ (1 ≤ ids.length → ids.length ≤ 50 →
          Validator.parseListArgs ⟨.arr ids, tmin, tmax⟩ = .ok ⟨.many ids, tmin, tmax⟩)
       ∧ Validator.parseListArgs ⟨.arr [], tmin, tmax⟩ = .error .calendarIdCount
       ∧ (50 < ids.length →
          Validator.parseListArgs ⟨.arr ids, tmin, tmax⟩ = .error .calendarIdCount)))
    ∧ (Validator.isISODateTime tmin = false → Validator.jsonDecodeStringArray s = none →
        Validator.parseListArgs ⟨.str s, tmin, tmax⟩ = .error .timeFormat)
    ∧ (∀ t, tmax = some t → Validator.isISODateTime t = false →
        Validator.isISODateTime tmin = true → Validator.jsonDecodeStringArray s = none →
        Validator.parseListArgs ⟨.str s, tmin, tmax⟩ = .error .timeFormat) := by
  refine ⟨fun htmin htmax => ⟨?_, ?_, ?_, ?_, ?_⟩, ?_, ?_⟩
  · intro hdec
    simp only [Validator.parseListArgs, Validator.resolveCalendarId, hdec, htmin, if_true]
    cases tmax with
    | none => rfl
    | some t =>
      simp only [timeMaxOk] at htmax
      simp [htmax]
  · intro hdec hlo hhi
    have harr : Validator.checkArray ids = .ok (.many ids) := by
      have hcond : ¬ (ids.length = 0 ∨ 50 < ids.length) := by omega
      simp only [Validator.checkArray, if_neg hcond]
    simp only [Validator.parseListArgs, Validator.resolveCalendarId, hdec, harr, htmin, if_true]
    cases tmax with
    | none => rfl
    | some t =>
      simp only [timeMaxOk] at htmax
      simp [htmax]
  · intro hlo hhi
    have harr : Validator.checkArray ids = .ok (.many ids) := by
      have hcond : ¬ (ids.length = 0 ∨ 50 < ids.length) := by omega
      simp only [Validator.checkArray, if_neg hcond]
    simp only [Validator.parseListArgs, Validator.resolveCalendarId, harr, htmin, if_true]
    cases tmax with
    | none => rfl
    | some t =>
      simp only [timeMaxOk] at htmax
      simp [htmax]
  · simp [Validator.parseListArgs, Validator.resolveCalendarId, Validator.checkArray]
  · intro hlen
    have harr : Validator.checkArray ids = .error .calendarIdCount := by
      simp [Validator.checkArray]
      omega
    simp [Validator.parseListArgs, Validator.resolveCalendarId, harr]
  · intro htmin hdec
    simp [Validator.parseListArgs, Validator.resolveCalendarId, hdec, htmin]
  · intro t ht htbad htmin hdec
    subst ht
    simp [Validator.parseListArgs, Validator.resolveCalendarId, hdec, htmin, htbad]

/-- C6 witness: the malformed JSON string (missing closing bracket) is
accepted as a literal string; the well-formed JSON array string decodes to
its three entries; a direct two-entry array is accepted; the empty and the
51-entry arrays are rejected; a date without time/timezone and a
non-ISO `timeMax` are rejected. -/
theorem claim_C6_witness :
    Validator.parseListArgs
        ⟨.str "[\"primary\", \"work@example.com\"", "2024-01-01T00:00:00Z", none⟩
      = .ok ⟨.one "[\"primary\", \"work@example.com\"", "2024-01-01T00:00:00Z", none⟩
    ∧ Validator.parseListArgs
        ⟨.str "[\"primary\", \"work@example.com\", \"personal@example.com\"]",
         "2024-01-01T00:00:00Z", none⟩
      = .ok ⟨.many ["primary", "work@example.com", "personal@example.com"],
             "2024-01-01T00:00:00Z", none⟩
    ∧ Validator.parseListArgs ⟨.arr ["a", "b"], "2024-01-01T00:00:00Z", none⟩
      = .ok ⟨.many ["a", "b"], "2024-01-01T00:00:00Z", none⟩
    ∧ Validator.parseListArgs ⟨.arr [], "2024-01-01T00:00:00Z", none⟩
      = .error .calendarIdCount
    ∧ Validator.parseListArgs ⟨.arr (List.replicate 51 "c"), "2024-01-01T00:00:00Z", none⟩
      = .error .calendarIdCount
    ∧ Validator.parseListArgs ⟨.str "primary", "2024-01-01", none⟩ = .error .timeFormat
    ∧ Validator.parseListArgs ⟨.str "primary", "2024-01-01T00:00:00Z", some "tomorrow"⟩
      = .error .timeFormat := by
  refine ⟨?_, ?_, ?_, ?_, ?_, ?_, ?_⟩
  · exact ((claim_C6 "[\"primary\", \"work@example.com\"" [] "2024-01-01T00:00:00Z"
      none).1 rfl rfl).1 rfl
  · exact ((claim_C6 "[\"primary\", \"work@example.com\", \"personal@example.com\"]"
      ["primary", "work@example.com", "personal@example.com"] "2024-01-01T00:00:00Z"
      none).1 rfl rfl).2.1 rfl (by decide) (by decide)
  · exact ((claim_C6 "" ["a", "b"] "2024-01-01T00:00:00Z" none).1 rfl rfl).2.2.1
      (by decide) (by decide)
  · exact ((claim_C6 "" [] "2024-01-01T00:00:00Z" none).1 rfl rfl).2.2.2.1
  · exact ((claim_C6 "" (List.replicate 51 "c") "2024-01-01T00:00:00Z" none).1
      rfl rfl).2.2.2.2 (by decide)
  · exact (claim_C6 "primary" [] "2024-01-01" none).2.1 rfl rfl
  · exact (claim_C6 "primary" [] "2024-01-01T00:00:00Z" (some "tomorrow")).2.2
      "tomorrow" rfl rfl rfl rfl

/-- C7: the call-tool boundary converts every thrown value into a success
envelope whose content is the single text item `Error: {message}` — the
error's message for an `Error` instance, its string form otherwise — and
passes normal results through; the boundary is a total function, so no
handler error escapes as a transport-level failure. -/
theorem claim_C7 (e : JsValue) (m d : String) :
    callToolBoundary (.error e) = ⟨[⟨"text", "Error: " ++ jsValueText e⟩]⟩
    ∧ (callToolBoundary (.error e)).content.length = 1
    ∧ jsValueText (.errorObj m) = m
    ∧ jsValueText (.other d) = d
    ∧ ∀ r : CallToolResult, callToolBoundary (.ok r) = r :=
  ⟨rfl, rfl, rfl, rfl, fun _ => rfl⟩

/-- C8: a Google API failure recognised as an invalid/expired token
(`GaxiosError` with `response.data.error = "invalid_grant"`) is surfaced as
an error whose message contains the explicit re-authentication instruction,
and nothing is retried (the handler only rethrows); every other error is
re-raised unchanged. -/
theorem claim_C8 (e : ThrownError) :
    (invalidGrantDetected e = true →
      handleGoogleApiError e = .jsError reAuthMessage
      ∧ ∃ pre post,
          reAuthMessage = pre ++ "Please re-run the authentication process" ++ post)
    ∧ (invalidGrantDetected e = false → handleGoogleApiError e = e) := by
  constructor
  · intro h
    refine ⟨by simp [handleGoogleApiError, h],
      "Google API Error: Authentication token is invalid or expired. ",
      " (e.g., `npm run auth`).", rfl⟩
  · intro h
    simp [handleGoogleApiError, h]

/-- C8 witness: a `GaxiosError` carrying `invalid_grant` becomes the
re-authentication error; a plain error is re-raised unchanged. -/
theorem claim_C8_witness :
    handleGoogleApiError
        (.gaxios "Request failed with status code 401" (some ⟨some ⟨some "invalid_grant"⟩⟩))
      = .jsError reAuthMessage
    ∧ handleGoogleApiError (.jsError "socket hang up") = .jsError "socket hang up" :=
  ⟨((claim_C8 (.gaxios "Request failed with status code 401"
      (some ⟨some ⟨some "invalid_grant"⟩⟩))).1 rfl).1,
   (claim_C8 (.jsError "socket hang up")).2 rfl⟩

/-- C9: `getClient` is memoized per bearer token for the process lifetime —
the first call with `t` creates a client, sets `t` as its access-token
credential and caches it under key `t`; the second call, and every call
after any further sequence of `getClient` calls with arbitrary tokens,
returns that same client with the state unchanged; a cached token is
returned as-is. -/
theorem claim_C9 (s : ClientManagerState) (t : String) (toks : List String) :
    getClient (getClient s t).2 t = ((getClient s t).1, (getClient s t).2)
    ∧ getClient (runGetClients (getClient s t).2 toks) t
        = ((getClient s t).1, runGetClients (getClient s t).2 toks)
    ∧ (s.clients.lookup t = none →
        (getClient s t).1.accessToken = some t
        ∧ (getClient s t).1.id = s.nextClientId
        ∧ (getClient s t).2.clients.lookup t = some (getClient s t).1)
    ∧ (∀ cl, s.clients.lookup t = some cl → getClient s t = (cl, s)) := by
  refine ⟨getClient_of_cached _ t _ (getClient_caches s t), ?_, ?_, ?_⟩
  · exact getClient_of_cached _ t _
      (lookup_runGetClients _ t _ (getClient_caches s t) toks)
  · intro h
    refine ⟨?_, ?_, getClient_caches s t⟩ <;> simp [getClient, h]
  · intro cl h
    exact getClient_of_cached s t cl h

/-- C9 witness: starting from the empty manager, the first call with
`"tok"` allocates the client with credential `"tok"`; the second call — even
after an interleaved call for another token — returns the very same
client. -/
theorem claim_C9_witness :
    getClient (getClient ⟨[], 0⟩ "tok").2 "tok"
      = ((getClient ⟨[], 0⟩ "tok").1, (getClient ⟨[], 0⟩ "tok").2)
    ∧ getClient (runGetClients (getClient ⟨[], 0⟩ "tok").2 ["other"]) "tok"
      = ((getClient ⟨[], 0⟩ "tok").1,
         runGetClients (getClient ⟨[], 0⟩ "tok").2 ["other"])
    ∧ (getClient (⟨[], 0⟩ : ClientManagerState) "tok").1.accessToken = some "tok" := by
  have h := claim_C9 ⟨[], 0⟩ "tok" ["other"]
  exact ⟨h.1, h.2.1, (h.2.2.1 rfl).1⟩

/-- C10: after validation the handlers delete the `accessToken` field before
any Google Calendar API call — the forwarded argument record has no access
token while every other validated field is unchanged, the
`events.delete` call receives only `calendarId` and `eventId`, and the
bearer token is used solely to obtain the client from the manager (shown for
`DeleteEventHandler` and `ListCalendarsHandler`). -/
theorem claim_C10 (v : DeleteEventValidArgs) (s : ClientManagerState)
    (w : ListCalendarsValidArgs) (items : List CalendarListEntry) :
    (deleteEventRunTool v s).forwarded.accessToken = none
    ∧ (deleteEventRunTool v s).forwarded.calendarId = v.calendarId
    ∧ (deleteEventRunTool v s).forwarded.eventId = v.eventId
    ∧ (deleteEventRunTool v s).apiCall = ⟨v.calendarId, v.eventId⟩
    ∧ (deleteEventRunTool v s).clientUsed = (getClient s v.accessToken).1
    ∧ (deleteEventRunTool v s).finalState = (getClient s v.accessToken).2
    ∧ (listCalendarsRunTool w s items).forwarded.accessToken = none
    ∧ (listCalendarsRunTool w s items).clientUsed = (getClient s w.accessToken).1 :=
  ⟨rfl, rfl, rfl, rfl, rfl, rfl, rfl, rfl⟩

end GCal
